import Mathlib

/-!
Verification of the VietNet browser search and tree-expansion core
(src/components/utils_search.py, src/components/class_Node.py,
src/vietnet_browser.py).

Shallow embedding conventions:
* Python strings are Lean `String`; a nullable text cell is `Option String`.
* The SQLite tables are lists of row structures; the SQL WHERE clause of
  the annotation query is modelled by filtering on the synset id.
* The Python dict returned by `get_viet_info_from_synset` is modelled as an
  association list, so that a missing key (a Python KeyError site) is
  observable as a failed lookup.
* The external graph provider (the `wn` library `Wordnet` object) is a
  parameter: an id-existence predicate plus a noun-lemma lookup returning
  identifiers.  The external `rapidfuzz` ratio is likewise a parameter
  `String → String → Nat` (it yields an integer-compatible 0..100 score).
* Python `list(set(xs))` produces the distinct elements of `xs` in an
  unspecified order; it is modelled by `List.dedup`, one representative
  order, which suffices for the set-semantics properties proved here.
-/

namespace VietNet

/-- Python `str` rendering of a nullable cell, as an f-string renders it:
`None` prints as the four letters None. -/
def pyStr : Option String → String
  | some s => s
  | none => "None"

/-- Python `str.lower` restricted to ASCII case mapping (the Lean `Char.toLower`);
the Vietnamese sample data in the store is already lower-case. -/
def pyLower (s : String) : String := ⟨s.data.map Char.toLower⟩

/-- Drop trailing whitespace characters, as the tail half of Python `str.strip`. -/
def dropTrailingWs (l : List Char) : List Char :=
  (l.reverse.dropWhile Char.isWhitespace).reverse

/-- Python `str.strip` on a character list: remove leading and trailing whitespace. -/
def pyStripList (l : List Char) : List Char :=
  dropTrailingWs (l.dropWhile Char.isWhitespace)

/-- Python `str.strip`. -/
def pyStrip (s : String) : String := ⟨pyStripList s.data⟩

/-- Bool test that `needle` starts `hay`. -/
def startsList (needle : List Char) : List Char → Bool
  | [] => needle.isEmpty
  | c :: t =>
    match needle with
    | [] => true
    | n :: ns => n == c && startsList ns t

/-- Bool test that `needle` occurs contiguously somewhere inside `hay`. -/
def occursIn (needle : List Char) : List Char → Bool
  | [] => needle.isEmpty
  | c :: t => startsList needle (c :: t) || occursIn needle t

/-- Python `sub in s` substring membership. -/
def pyIn (sub s : String) : Bool := occursIn sub.data s.data

/-- Embeds `normalize` (src/components/utils_search.py line 40):
`text.lower().strip()`. -/
def normalize (text : String) : String := pyStrip (pyLower text)

/-- One row of the VIETNET_DATA annotation table.  Columns follow the store
schema (graph id, translated lemma, translated definition, translated example,
is-same flag); the browser code reads only the first four. -/
structure VietRow where
  synset_id : String
  viet_word : String
  viet_definition : Option String
  viet_example : Option String
  is_same_flag : Option String
deriving DecidableEq

/-- The SQL query `SELECT * FROM VIETNET_DATA WHERE synset_id = ?`:
the rows of the store matching the id, in store iteration order. -/
def matching_rows (store : List VietRow) (synset_id : String) : List VietRow :=
  store.filter (fun r => r.synset_id == synset_id)

/-- Python `", ".join`. -/
def joinComma : List String → String
  | [] => ""
  | [x] => x
  | x :: y :: xs => x ++ ", " ++ joinComma (y :: xs)

/-- Python `" | ".join`. -/
def joinBar : List String → String
  | [] => ""
  | [x] => x
  | x :: y :: xs => x ++ " | " ++ joinBar (y :: xs)

/-- The definitions loop of `get_viet_info_from_synset`
(src/components/utils_search.py lines 96-99): every row, null or not,
is numbered by its position; `i` is the zero-based position of the head. -/
def defs_agg : List (Option String) → Nat → String
  | [], _ => ""
  | d :: ds, i => (toString (i + 1) ++ ". " ++ pyStr d ++ " | ") ++ defs_agg ds (i + 1)

/-- The examples loop of `get_viet_info_from_synset`
(src/components/utils_search.py lines 101-107): null examples are skipped
and a dedicated counter `c` numbers only the non-null ones. -/
def examples_agg : List (Option String) → Nat → String
  | [], _ => ""
  | none :: es, c => examples_agg es c
  | some e :: es, c => (toString (c + 1) ++ ". " ++ e ++ " | ") ++ examples_agg es (c + 1)

/-- The Python dict value type of the record: keys to nullable strings. -/
abbrev PyDict := List (String × Option String)

/-- Python dict subscript access: `some v` when the key is present with value
`v`, `none` models the KeyError case. -/
def dictGet (d : PyDict) (k : String) : Option (Option String) :=
  (d.find? (fun p => p.1 == k)).map (fun p => p.2)

/-- Embeds `get_viet_info_from_synset` (src/components/utils_search.py
lines 85-118).  Returns the Python dict built by the function: on a match,
keys viet_word, viet_definition, viet_example; on no match, the same three
keys all mapped to null.  No is-same key is ever produced. -/
def get_viet_info_from_synset (store : List VietRow) (synset_id : String) : PyDict :=
  let df := matching_rows store synset_id
  if df.isEmpty then
    [("viet_word", none), ("viet_definition", none), ("viet_example", none)]
  else
    let lemmas_list := df.map (fun r => r.viet_word)
    let lemmas : Option String :=
      if lemmas_list.isEmpty then none else some (joinComma lemmas_list)
    let definitions := defs_agg (df.map (fun r => r.viet_definition)) 0
    let examples := examples_agg (df.map (fun r => r.viet_example)) 0
    [("viet_word", lemmas), ("viet_definition", some definitions),
     ("viet_example", some examples)]

/-- The annotation fields stored by `Node.__init__`
(src/components/class_Node.py lines 8-11). -/
structure NodeAnnot where
  viet_lemmas : Option String
  viet_definition : Option String
  viet_example : Option String
  is_same_flag : Option String
deriving DecidableEq

/-- Embeds the annotation reads of `Node.__init__`
(src/components/class_Node.py lines 5-11): each Python dict subscript raises
KeyError when the key is absent, modelled by `Option`; the constructor
succeeds only when every key it reads is present. -/
def node_init_annot (store : List VietRow) (synset_id : String) : Option NodeAnnot :=
  let r := get_viet_info_from_synset store synset_id
  match dictGet r "viet_word", dictGet r "viet_definition",
        dictGet r "viet_example", dictGet r "is_same" with
  | some w, some d, some e, some s => some ⟨w, d, e, s⟩
  | _, _, _, _ => none

/-- One row of the VIETNET_EXACT_SEARCH table: the source-language string and
the mapped graph id. -/
structure SearchRow where
  tieng : String
  synset_id : String
deriving DecidableEq

/-- Embeds `exact_search_vietnet_search` (src/components/utils_search.py
lines 66-78): collect, in store order, the ids of rows whose normalized
source string equals the normalized query. -/
def exact_search_vietnet_search (table : List SearchRow) (user_input : String) :
    List String :=
  let query := normalize user_input
  (table.filter (fun r => normalize r.tieng == query)).map (fun r => r.synset_id)

/-- One row of the VIETNET_FUZZ_SEARCH table: the source-language string and
the word label offered as a suggestion. -/
structure FuzzRow where
  tieng : String
  word : String
deriving DecidableEq

/-- The scoring pass of `fuzzy_search_vietnet_search`
(src/components/utils_search.py lines 53-58): pair every indexed word whose
similarity score against the normalized query reaches the threshold with
that score, in store order. -/
def fuzzy_pairs (table : List FuzzRow) (user_input : String)
    (ratio : String → String → Nat) (threshold : Nat) : List (String × Nat) :=
  let query := normalize user_input
  table.filterMap (fun r =>
    let score := ratio query (normalize r.tieng)
    if threshold ≤ score then some (r.word, score) else none)

/-- The dedup-and-sort pass of `fuzzy_search_vietnet_search`
(src/components/utils_search.py lines 60-61): `list(set(results))` becomes
`List.dedup` (one representative order of the set) and the stable sort by
negated score becomes a merge sort by non-increasing score. -/
def fuzzy_sorted (table : List FuzzRow) (user_input : String)
    (ratio : String → String → Nat) (threshold : Nat) : List (String × Nat) :=
  ((fuzzy_pairs table user_input ratio threshold).dedup).mergeSort
    (fun a b => decide (b.2 ≤ a.2))

/-- Embeds `fuzzy_search_vietnet_search` (src/components/utils_search.py
lines 46-62): the word components of the scored, deduplicated, sorted pairs.
Note the function itself returns the whole list; the take-5 truncation
happens in its caller `search_function`. -/
def fuzzy_search_vietnet_search (table : List FuzzRow) (user_input : String)
    (ratio : String → String → Nat) (threshold : Nat) : List String :=
  (fuzzy_sorted table user_input ratio threshold).map (fun p => p.1)

/-- The external graph provider (the `wn` library lexicon): id existence for
`lexicon.synset(id)` truthiness, and the noun lemma lookup
`lexicon.synsets(word, pos=n)` returning synset identifiers. -/
structure Lexicon where
  synset_exists : String → Bool
  synsets : String → List String

/-- The value of the `(list, message)` pair returned by `search_function`,
written as the tagged resolution the spec describes: `(ids, None)` is
`resolved ids`; `([], message)` is `unresolved message suggestions`, where
`suggestions` is the list the message was built from (empty outside the
fuzzy branch). -/
inductive SearchResult where
  | resolved (ids : List String)
  | unresolved (message : String) (suggestions : List String)
deriving DecidableEq

/-- Embeds `search_function` (src/components/utils_search.py lines 12-34).
Synset objects are represented by their identifiers, so the mapping of
exact-search ids through `lexicon.synset` is the identity on ids and
`list(set(result))` is `List.dedup`. -/
def search_function (user_input : String) (lex : Lexicon)
    (exact_table : List SearchRow) (fuzz_table : List FuzzRow)
    (ratio : String → String → Nat) : SearchResult :=
  if pyIn "oewn-" user_input then
    let ssid := pyStrip user_input
    if lex.synset_exists ssid then
      .resolved [ssid]
    else
      .unresolved ("Synset_ID " ++ ssid ++ " không tồn tại") []
  else
    let result := exact_search_vietnet_search exact_table user_input ++
      lex.synsets user_input
    if result.isEmpty then
      let recommended := fuzzy_search_vietnet_search fuzz_table user_input ratio 80
      let suggestion := joinBar (recommended.take 5)
      .unresolved ("Bạn hãy thử tìm các từ sau: " ++ suggestion) (recommended.take 5)
    else
      .resolved result.dedup

/-- A vertex of an expansion tree: graph id, depth, its annotation record,
and the ordered children.  The id/depth/annotation fields follow
`Node.__init__` (src/components/class_Node.py); the recursive children
field follows the spec TreeNode. -/
inductive TreeNode where
  | mk (id : String) (depth : Nat) (annot : PyDict) (children : List TreeNode)

/-- Graph identifier of a tree vertex. -/
def TreeNode.nodeId : TreeNode → String
  | .mk i _ _ _ => i

/-- Depth of a tree vertex (the recursive level passed to `Node.__init__`). -/
def TreeNode.depth : TreeNode → Nat
  | .mk _ d _ _ => d

/-- Ordered children of a tree vertex. -/
def TreeNode.children : TreeNode → List TreeNode
  | .mk _ _ _ cs => cs

/-- Modelled from the spec: the recursive expansion of TreeBuilder (spec
section 4.6) — the class_NodeFamily.py module is imported by
src/vietnet_browser.py but is not present in the sources, so the recursion
is taken from the spec words: a node at depth d with d < max_depth gets one
child at depth d+1 per outgoing relation target, and expansion stops when
d reaches max_depth.  The fuel argument is max_depth minus the current
depth.  Every node is enriched through the embedded annotation lookup at
the single store fixed for the whole forest. -/
def expandAux (rel : String → List String) (store : List VietRow) :
    Nat → Nat → String → TreeNode
  | 0, d, i => .mk i d (get_viet_info_from_synset store i) []
  | fuel + 1, d, i =>
    .mk i d (get_viet_info_from_synset store i)
      ((rel i).map (expandAux rel store fuel (d + 1)))

/-- Modelled from the spec: TreeBuilder forest construction (spec section
4.6) — one root per seed identifier, each expanded from depth 0 with the
configured maximum depth. -/
def build (rel : String → List String) (store : List VietRow)
    (seeds : List String) (maxDepth : Nat) : List TreeNode :=
  seeds.map (expandAux rel store maxDepth 0)

mutual

/-- Every vertex of a tree: the root followed by the vertices of the
children, used to state the whole-forest invariants. -/
def TreeNode.allNodes : TreeNode → List TreeNode
  | .mk i d a cs => .mk i d a cs :: allNodesList cs

/-- Every vertex of every tree of a list. -/
def allNodesList : List TreeNode → List TreeNode
  | [] => []
  | t :: ts => t.allNodes ++ allNodesList ts

end

/-- Concatenation of a list of strings, for stating the spec-side
aggregation. -/
def strJoin : List String → String
  | [] => ""
  | s :: l => s ++ strJoin l

/-- Spec-side numbering of the definitions column: the row at 1-indexed
position i contributes its number, the rendered definition and the
separator. -/
def spec_defs (ds : List (Option String)) : String :=
  strJoin ((List.enumFrom 1 ds).map
    (fun p => toString p.1 ++ ". " ++ pyStr p.2 ++ " | "))

/-- Spec-side numbering of the examples column: only the non-null examples
are kept and they are numbered 1-indexed within that non-null subset. -/
def spec_examples (es : List (Option String)) : String :=
  strJoin ((List.enumFrom 1 (es.filterMap id)).map
    (fun p => toString p.1 ++ ". " ++ p.2 ++ " | "))

/-- Concrete annotation store realizing the example of spec section 8: one
node with two rows, definitions A and B, a null example and an example ex1. -/
def exStore : List VietRow :=
  [⟨"s1", "w1", some "A", none, none⟩,
   ⟨"s1", "w2", some "B", some "ex1", none⟩]

/-- A concrete stand-in for the external similarity ratio, satisfying the
documented property that a string scores 100 against itself. -/
def exRatio (a b : String) : Nat := if a = b then 100 else 0

/-- A second concrete ratio, everywhere zero, used to exhibit independence
of the identifier path from the fuzzy machinery. -/
def exRatioZero (_ _ : String) : Nat := 0

/-- A fuzzy-search table with six rows whose source strings all equal the
query, so all six word labels clear the threshold. -/
def fuzz6 : List FuzzRow :=
  [⟨"a", "w1"⟩, ⟨"a", "w2"⟩, ⟨"a", "w3"⟩, ⟨"a", "w4"⟩, ⟨"a", "w5"⟩, ⟨"a", "w6"⟩]

/-- A fuzzy-search table on which no row clears the threshold for the
query zz under `exRatio`. -/
def fuzzLow : List FuzzRow := [⟨"xx", "w"⟩]

/-- A concrete graph provider: one identifier exists, and the noun lemma
lookup answers the lemma b with one synset. -/
def exLex : Lexicon :=
  ⟨fun i => i == "oewn-1", fun w => if w == "b" then ["s9", "s9"] else []⟩

/-- A concrete relation function: the node a has two targets, everything
else none. -/
def exRel : String → List String :=
  fun i => if i == "a" then ["b", "c"] else []

/-- The definitions loop computes the spec-side 1-indexed numbering, for any
starting index. -/
theorem defs_agg_enumFrom (ds : List (Option String)) :
    ∀ i, defs_agg ds i = strJoin ((List.enumFrom (i + 1) ds).map
      (fun p => toString p.1 ++ ". " ++ pyStr p.2 ++ " | ")) := by
  induction ds with
  | nil => intro i; rfl
  | cons d ds ih =>
    intro i
    rw [defs_agg, List.enumFrom_cons, List.map_cons, strJoin, ih (i + 1)]

/-- The examples loop computes the spec-side numbering of the non-null
subset, for any starting counter. -/
theorem examples_agg_enumFrom (es : List (Option String)) :
    ∀ c, examples_agg es c = strJoin ((List.enumFrom (c + 1) (es.filterMap id)).map
      (fun p => toString p.1 ++ ". " ++ p.2 ++ " | ")) := by
  induction es with
  | nil => intro c; rfl
  | cons e es ih =>
    intro c
    cases e with
    | none => rw [examples_agg, ih c]; rfl
    | some v =>
      rw [examples_agg, ih (c + 1)]
      rw [show List.filterMap id (some v :: es) = v :: List.filterMap id es from rfl]
      rw [List.enumFrom_cons, List.map_cons, strJoin]

/-- A list whose membership predicate fails everywhere is not empty when a
hypothesis says it is nonempty; bridging Bool isEmpty to the Prop form. -/
theorem isEmpty_false_of_ne_nil {α : Type} {l : List α} (h : l ≠ []) :
    l.isEmpty = false := by
  rw [Bool.eq_false_iff]
  rw [Ne, List.isEmpty_iff]
  exact h

/-- Claim C1: for a node with at least one matching annotation row, the
aggregated definition string numbers every row 1-indexed in store iteration
order, null definitions included, and the aggregated example string numbers
only the non-null examples with a dedicated counter. -/
theorem annotation_numbering (store : List VietRow) (sid : String)
    (h : matching_rows store sid ≠ []) :
    dictGet (get_viet_info_from_synset store sid) "viet_definition"
      = some (some (spec_defs ((matching_rows store sid).map
          VietRow.viet_definition))) ∧
    dictGet (get_viet_info_from_synset store sid) "viet_example"
      = some (some (spec_examples ((matching_rows store sid).map
          VietRow.viet_example))) := by
  have hie := isEmpty_false_of_ne_nil h
  constructor
  · simp only [get_viet_info_from_synset, hie, Bool.false_eq_true, if_false]
    rw [defs_agg_enumFrom]
    rfl
  · simp only [get_viet_info_from_synset, hie, Bool.false_eq_true, if_false]
    rw [examples_agg_enumFrom]
    rfl

/-- Claim C1 witness: the concrete two-row example of the spec yields the
definition string 1. A | 2. B |  and the example string 1. ex1 | . -/
theorem annotation_numbering_witness :
    matching_rows exStore "s1" ≠ [] ∧
    dictGet (get_viet_info_from_synset exStore "s1") "viet_definition"
      = some (some "1. A | 2. B | ") ∧
    dictGet (get_viet_info_from_synset exStore "s1") "viet_example"
      = some (some "1. ex1 | ") := by
  have h := annotation_numbering exStore "s1" (by decide)
  exact ⟨by decide, h.1.trans (by rfl), h.2.trans (by rfl)⟩

/-- Claim C2: the record built by the annotation lookup never carries an
is-same key, so the constructor of Node, which reads that key, fails with a
KeyError on every synset and store; the code contradicts both the spec and
its own consumer. -/
theorem node_init_is_same_missing (store : List VietRow) (sid : String) :
    dictGet (get_viet_info_from_synset store sid) "is_same" = none ∧
    node_init_annot store sid = none := by
  have hnone : dictGet (get_viet_info_from_synset store sid) "is_same" = none := by
    simp only [get_viet_info_from_synset]
    split <;> rfl
  refine ⟨hnone, ?_⟩
  simp only [node_init_annot]
  rw [hnone]
  split <;> simp_all

/-- Claim C7: when zero rows of the store match the id, every field of the
returned record is null or absent, and no error value is produced. -/
theorem missing_annotation_all_none (store : List VietRow) (sid : String)
    (h : matching_rows store sid = []) :
    dictGet (get_viet_info_from_synset store sid) "viet_word" = some none ∧
    dictGet (get_viet_info_from_synset store sid) "viet_definition" = some none ∧
    dictGet (get_viet_info_from_synset store sid) "viet_example" = some none ∧
    dictGet (get_viet_info_from_synset store sid) "is_same" = none := by
  simp only [get_viet_info_from_synset, h]
  exact ⟨rfl, rfl, rfl, rfl⟩

/-- Claim C7 witness: a concrete id with no row in the concrete store. -/
theorem missing_annotation_all_none_witness :
    matching_rows exStore "zz" = [] ∧
    dictGet (get_viet_info_from_synset exStore "zz") "viet_word" = some none ∧
    dictGet (get_viet_info_from_synset exStore "zz") "viet_definition" = some none ∧
    dictGet (get_viet_info_from_synset exStore "zz") "viet_example" = some none ∧
    dictGet (get_viet_info_from_synset exStore "zz") "is_same" = none := by
  have h := missing_annotation_all_none exStore "zz" (by decide)
  exact ⟨by decide, h.1, h.2.1, h.2.2.1, h.2.2.2⟩

/-- Claim C9: the annotation lookup is a pure function of the rows matching
the id, so two calls against stores agreeing on those rows — in particular
two calls against one unchanged read-only store — return identical
records. -/
theorem annotation_lookup_idempotent (store1 store2 : List VietRow)
    (sid : String)
    (h : matching_rows store1 sid = matching_rows store2 sid) :
    get_viet_info_from_synset store1 sid
      = get_viet_info_from_synset store2 sid := by
  unfold get_viet_info_from_synset
  rw [h]

/-- Claim C9 witness: a repeated call on the unchanged concrete store. -/
theorem annotation_lookup_idempotent_witness :
    get_viet_info_from_synset exStore "s1"
      = get_viet_info_from_synset exStore "s1" :=
  annotation_lookup_idempotent exStore exStore "s1" rfl

/-- Claim C3: a query recognized as an explicit identifier resolves to
exactly the trimmed identifier when the provider knows it, and otherwise
yields an unresolved result whose message names the identifier and whose
suggestion list is empty. -/
theorem explicit_identifier_resolution (q : String) (lex : Lexicon)
    (et : List SearchRow) (ft : List FuzzRow) (ratio : String → String → Nat)
    (h : pyIn "oewn-" q = true) :
    (lex.synset_exists (pyStrip q) = true →
      search_function q lex et ft ratio = .resolved [pyStrip q]) ∧
    (lex.synset_exists (pyStrip q) = false →
      search_function q lex et ft ratio =
        .unresolved ("Synset_ID " ++ pyStrip q ++ " không tồn tại") []) := by
  constructor <;> intro hex <;> simp [search_function, h, hex]

/-- Claim C3 witness: the identifier oewn-1 exists in the concrete provider
and a padded spelling of it resolves to exactly the trimmed identifier. -/
theorem explicit_identifier_resolution_witness :
    pyIn "oewn-" " oewn-1 " = true ∧
    exLex.synset_exists (pyStrip " oewn-1 ") = true ∧
    search_function " oewn-1 " exLex [] [] exRatio = .resolved [pyStrip " oewn-1 "] :=
  ⟨by decide, by decide,
    (explicit_identifier_resolution " oewn-1 " exLex [] [] exRatio
      (by decide)).1 (by decide)⟩

/-- Claim C4: a free-text query whose union of exact native match and
native lemma lookup is nonempty resolves to the deduplicated union, which
is nonempty and duplicate-free even when the two paths overlap. -/
theorem free_text_resolution (q : String) (lex : Lexicon)
    (et : List SearchRow) (ft : List FuzzRow) (ratio : String → String → Nat)
    (h1 : pyIn "oewn-" q = false)
    (h2 : exact_search_vietnet_search et q ++ lex.synsets q ≠ []) :
    search_function q lex et ft ratio =
      .resolved ((exact_search_vietnet_search et q ++ lex.synsets q).dedup) ∧
    (exact_search_vietnet_search et q ++ lex.synsets q).dedup ≠ [] ∧
    ((exact_search_vietnet_search et q ++ lex.synsets q).dedup).Nodup := by
  have hie := isEmpty_false_of_ne_nil h2
  refine ⟨?_, ?_, List.nodup_dedup _⟩
  · simp [search_function, h1, hie]
  · intro hc
    exact h2 ((List.dedup_eq_nil _).mp hc)

/-- Claim C4 witness: the lemma b resolves through the native lemma lookup
to the duplicate-carrying union s9, s9, returned deduplicated, nonempty and
duplicate-free. -/
theorem free_text_resolution_witness :
    pyIn "oewn-" "b" = false ∧
    exact_search_vietnet_search [] "b" ++ exLex.synsets "b" ≠ [] ∧
    search_function "b" exLex [] [] exRatio =
      .resolved ((exact_search_vietnet_search [] "b" ++ exLex.synsets "b").dedup) ∧
    (exact_search_vietnet_search [] "b" ++ exLex.synsets "b").dedup ≠ [] ∧
    ((exact_search_vietnet_search [] "b" ++ exLex.synsets "b").dedup).Nodup := by
  have h := free_text_resolution "b" exLex [] [] exRatio (by decide) (by decide)
  exact ⟨by decide, by decide, h.1, h.2.1, h.2.2⟩

/-- Claim C10: any input containing the five characters oewn- anywhere is
handled entirely by the explicit-identifier path on the trimmed input: the
result is exactly the identifier-path value, does not depend on the exact
table, the fuzzy table or the ratio, and never carries fuzzy
suggestions. -/
theorem identifier_marker_bypasses_matchers (q : String) (lex : Lexicon)
    (et et2 : List SearchRow) (ft ft2 : List FuzzRow)
    (ratio ratio2 : String → String → Nat)
    (h : pyIn "oewn-" q = true) :
    search_function q lex et ft ratio =
      (if lex.synset_exists (pyStrip q) then .resolved [pyStrip q]
       else .unresolved ("Synset_ID " ++ pyStrip q ++ " không tồn tại") []) ∧
    search_function q lex et ft ratio = search_function q lex et2 ft2 ratio2 ∧
    (∀ msg s, search_function q lex et ft ratio = .unresolved msg s → s = []) := by
  refine ⟨?_, ?_, ?_⟩
  · simp [search_function, h]
  · simp [search_function, h]
  · intro msg s hc
    simp only [search_function, h, if_true] at hc
    split at hc <;> simp_all

/-- Claim C10 witness: an input that merely contains the marker in the
middle is still routed to the identifier path, independently of two
different store and ratio instantiations. -/
theorem identifier_marker_bypasses_matchers_witness :
    pyIn "oewn-" "x oewn-zz y" = true ∧
    search_function "x oewn-zz y" exLex [] [] exRatio =
      search_function "x oewn-zz y" exLex [⟨"a", "s1"⟩] fuzz6 exRatioZero := by
  have h := identifier_marker_bypasses_matchers "x oewn-zz y" exLex
    [] [⟨"a", "s1"⟩] [] fuzz6 exRatio exRatioZero (by decide)
  exact ⟨by decide, h.2.1⟩

/-- There is a leading all-whitespace part before the dropWhile residue. -/
theorem dropWhile_decomp (p : Char → Bool) (l : List Char) :
    ∃ pre, l = pre ++ l.dropWhile p ∧ ∀ c ∈ pre, p c = true :=
  ⟨l.takeWhile p, (List.takeWhile_append_dropWhile p l).symm,
    fun _ hc => List.mem_takeWhile_imp hc⟩

/-- Stripping only removes an all-whitespace border: the original character
list is an all-whitespace front, the stripped residue, then an
all-whitespace back. -/
theorem pyStripList_decomp (l : List Char) :
    ∃ pre suf, l = pre ++ pyStripList l ++ suf ∧
      (∀ c ∈ pre, c.isWhitespace = true) ∧ (∀ c ∈ suf, c.isWhitespace = true) := by
  obtain ⟨pre, hpre, hpw⟩ := dropWhile_decomp Char.isWhitespace l
  obtain ⟨suf0, hsuf, hsw⟩ :=
    dropWhile_decomp Char.isWhitespace (l.dropWhile Char.isWhitespace).reverse
  refine ⟨pre, suf0.reverse, ?_, hpw, ?_⟩
  · have hmid : l.dropWhile Char.isWhitespace =
        pyStripList l ++ suf0.reverse := by
      have := congrArg List.reverse hsuf
      rw [List.reverse_reverse, List.reverse_append] at this
      simpa [pyStripList, dropTrailingWs] using this
    calc l = pre ++ List.dropWhile Char.isWhitespace l := hpre
      _ = pre ++ (pyStripList l ++ suf0.reverse) := by rw [hmid]
      _ = pre ++ pyStripList l ++ suf0.reverse := (List.append_assoc _ _ _).symm
  · intro c hc
    exact hsw c (List.mem_reverse.mp hc)

/-- Claim C8: normalization lower-cases and removes exactly an
all-whitespace border — internal characters, internal whitespace included,
are untouched — and the two sample strings differing only in internal
whitespace normalize to distinct results.  The function is a total Lean
function, hence pure and never raising. -/
theorem normalize_properties :
    (∀ t : String, ∃ pre suf : List Char,
        (pyLower t).data = pre ++ (normalize t).data ++ suf ∧
        (∀ c ∈ pre, c.isWhitespace = true) ∧ (∀ c ∈ suf, c.isWhitespace = true)) ∧
    normalize "con  chó" ≠ normalize "con chó" := by
  constructor
  · intro t
    exact pyStripList_decomp (pyLower t).data
  · decide

/-- Claim C8 witness: the concrete distinctness of the two sample strings,
read off the main theorem. -/
theorem normalize_properties_witness :
    normalize "con  chó" ≠ normalize "con chó" :=
  normalize_properties.2

/-- Claim C5 counterexample: with six indexed rows all scoring 100 against
the query, the list returned by the fuzzy matcher itself has length six —
the claimed bound of five fails, because the take-5 truncation lives in the
caller, not in the fuzzy matcher. -/
theorem fuzzy_length_counterexample :
    ¬ ((fuzzy_search_vietnet_search fuzz6 "a" exRatio 80).length ≤ 5) := by
  have hlen : (fuzzy_search_vietnet_search fuzz6 "a" exRatio 80).length = 6 := by
    unfold fuzzy_search_vietnet_search fuzzy_sorted
    rw [List.length_map, (List.mergeSort_perm _ _).length_eq]
    decide
  omega

/-- Claim C5 as amended: the fuzzy list contains only indexed words whose
ratio against the normalized query reaches the threshold, is deduplicated
as word-score pairs, is sorted by non-increasing score and is empty when no
row clears the threshold; the at-most-five bound holds not of the matcher
itself but of the suggestion list the seed resolver builds from it. -/
theorem fuzzy_suggestion_properties (table : List FuzzRow) (q : String)
    (ratio : String → String → Nat) (t : Nat) :
    (∀ w ∈ fuzzy_search_vietnet_search table q ratio t,
        ∃ r ∈ table, w = r.word ∧ t ≤ ratio (normalize q) (normalize r.tieng)) ∧
    (fuzzy_sorted table q ratio t).Nodup ∧
    List.Sorted (fun a b => b.2 ≤ a.2) (fuzzy_sorted table q ratio t) ∧
    ((∀ r ∈ table, ratio (normalize q) (normalize r.tieng) < t) →
        fuzzy_search_vietnet_search table q ratio t = []) ∧
    (∀ (lex : Lexicon) (et : List SearchRow) (msg : String) (s : List String),
        search_function q lex et table ratio = .unresolved msg s →
        s.length ≤ 5) := by
  refine ⟨?_, ?_, ?_, ?_, ?_⟩
  · intro w hw
    obtain ⟨p, hp, rfl⟩ := List.mem_map.mp hw
    have hp2 : p ∈ (fuzzy_pairs table q ratio t).dedup :=
      ((List.mergeSort_perm _ _).mem_iff).mp hp
    have hp3 : p ∈ fuzzy_pairs table q ratio t := List.mem_dedup.mp hp2
    obtain ⟨r, hr, hfr⟩ := List.mem_filterMap.mp hp3
    refine ⟨r, hr, ?_⟩
    by_cases hts : t ≤ ratio (normalize q) (normalize r.tieng)
    · rw [if_pos hts] at hfr
      cases hfr

      exact ⟨rfl, hts⟩
    · rw [if_neg hts] at hfr
      cases hfr
  · exact ((List.mergeSort_perm _ _).nodup_iff).mpr (List.nodup_dedup _)
  · have hs := @List.sorted_mergeSort (String × Nat)
      (fun a b => decide (b.2 ≤ a.2))
      (fun a b c h1 h2 => by
        simp only [decide_eq_true_eq] at h1 h2 ⊢
        omega)
      (fun a b => by
        rcases Nat.le_total b.2 a.2 with h | h <;> simp [h])
      ((fuzzy_pairs table q ratio t).dedup)
    exact hs.imp (fun h => by simpa using h)
  · intro hall
    have hp : fuzzy_pairs table q ratio t = [] := by
      simp only [fuzzy_pairs]
      rw [List.filterMap_eq_nil_iff]
      intro r hr
      simp only [if_neg (Nat.not_le.mpr (hall r hr))]
    unfold fuzzy_search_vietnet_search fuzzy_sorted
    rw [hp]
    simp
  · intro lex et msg s hc
    cases hid : pyIn "oewn-" q with
    | true =>
      simp only [search_function, hid, if_true] at hc
      split at hc
      · cases hc
      · cases hc
        simp
    | false =>
      simp only [search_function, hid, Bool.false_eq_true, if_false] at hc
      split at hc
      · cases hc
        exact List.length_take_le 5 _
      · cases hc

/-- Claim C5 witness: on a table where nothing clears the default threshold
the matcher output is empty, and an unresolved free-text search against the
six-row table carries at most five suggestions. -/
theorem fuzzy_suggestion_properties_witness :
    fuzzy_search_vietnet_search fuzzLow "zz" exRatio 80 = [] ∧
    (∀ msg s, search_function "zz" ⟨fun _ => false, fun _ => []⟩ [] fuzz6 exRatio
        = .unresolved msg s → s.length ≤ 5) :=
  ⟨(fuzzy_suggestion_properties fuzzLow "zz" exRatio 80).2.2.2.1 (by decide),
   fun msg s h =>
     (fuzzy_suggestion_properties fuzz6 "zz" exRatio 80).2.2.2.2
       ⟨fun _ => false, fun _ => []⟩ [] msg s h⟩

/-- Unfolding of the vertex enumeration at a constructor. -/
theorem allNodes_mk (i : String) (d : Nat) (a : PyDict) (cs : List TreeNode) :
    (TreeNode.mk i d a cs).allNodes = TreeNode.mk i d a cs :: allNodesList cs :=
  rfl

/-- Membership in the vertex enumeration of a list of trees. -/
theorem mem_allNodesList {n : TreeNode} :
    ∀ {l : List TreeNode}, n ∈ allNodesList l ↔ ∃ t ∈ l, n ∈ t.allNodes := by
  intro l
  induction l with
  | nil => simp [allNodesList]
  | cons t ts ih =>
    rw [allNodesList, List.mem_append, ih]
    constructor
    · rintro (h | ⟨u, hu, hnu⟩)
      · exact ⟨t, List.mem_cons_self t ts, h⟩
      · exact ⟨u, List.mem_cons_of_mem t hu, hnu⟩
    · rintro ⟨u, hu, hnu⟩
      rcases List.mem_cons.mp hu with rfl | hu2
      · exact Or.inl hnu
      · exact Or.inr ⟨u, hu2, hnu⟩

/-- The root of an expansion carries exactly the depth it was started at. -/
theorem expandAux_depth (rel : String → List String) (store : List VietRow)
    (fuel d : Nat) (i : String) : (expandAux rel store fuel d i).depth = d := by
  cases fuel <;> rfl

/-- Depth bound along an expansion: every vertex of the tree expanded from
depth d with the given fuel has depth at most d plus the fuel. -/
theorem expandAux_depth_le (rel : String → List String) (store : List VietRow) :
    ∀ (fuel d : Nat) (i : String) (n : TreeNode),
      n ∈ (expandAux rel store fuel d i).allNodes → n.depth ≤ d + fuel := by
  intro fuel
  induction fuel with
  | zero =>
    intro d i n hn
    rw [expandAux, allNodes_mk] at hn
    rcases List.mem_cons.mp hn with rfl | h2
    · simp [TreeNode.depth]
    · cases h2
  | succ fuel ih =>
    intro d i n hn
    rw [expandAux, allNodes_mk] at hn
    rcases List.mem_cons.mp hn with rfl | h2
    · simp [TreeNode.depth]
    · obtain ⟨u, hu, hnu⟩ := mem_allNodesList.mp h2
      obtain ⟨x, _, rfl⟩ := List.mem_map.mp hu
      have := ih (d + 1) x n hnu
      omega

/-- Parent-child depth step along an expansion: every child of every vertex
of an expanded tree sits one level below its parent. -/
theorem expandAux_child_depth (rel : String → List String) (store : List VietRow) :
    ∀ (fuel d : Nat) (i : String) (n : TreeNode),
      n ∈ (expandAux rel store fuel d i).allNodes →
      ∀ c ∈ n.children, c.depth = n.depth + 1 := by
  intro fuel
  induction fuel with
  | zero =>
    intro d i n hn c hc
    rw [expandAux, allNodes_mk] at hn
    rcases List.mem_cons.mp hn with rfl | h2
    · cases hc
    · cases h2
  | succ fuel ih =>
    intro d i n hn c hc
    rw [expandAux, allNodes_mk] at hn
    rcases List.mem_cons.mp hn with rfl | h2
    · rw [TreeNode.children] at hc
      obtain ⟨x, _, rfl⟩ := List.mem_map.mp hc
      rw [expandAux_depth, TreeNode.depth]
    · obtain ⟨u, hu, hnu⟩ := mem_allNodesList.mp h2
      obtain ⟨x, _, rfl⟩ := List.mem_map.mp hu
      exact ih (d + 1) x n hnu c hc

/-- Claim C6: in every forest built with maximum depth D, each seed root
has depth zero, no vertex exceeds depth D, and each child is exactly one
level below its parent.  Modelled from the spec, section 4.6, because the
tree-builder module is absent from the sources. -/
theorem forest_depth_invariants (rel : String → List String)
    (store : List VietRow) (seeds : List String) (D : Nat) (root : TreeNode)
    (hroot : root ∈ build rel store seeds D) :
    root.depth = 0 ∧
    ∀ n ∈ root.allNodes,
      n.depth ≤ D ∧ ∀ c ∈ n.children, c.depth = n.depth + 1 := by
  obtain ⟨s, _, rfl⟩ := List.mem_map.mp hroot
  refine ⟨expandAux_depth rel store D 0 s, fun n hn => ⟨?_, ?_⟩⟩
  · have := expandAux_depth_le rel store D 0 s n hn
    omega
  · exact expandAux_child_depth rel store D 0 s n hn

/-- Claim C6 witness: the concrete one-seed forest of maximum depth one
over the two-target relation satisfies all three depth facts. -/
theorem forest_depth_invariants_witness :
    expandAux exRel exStore 1 0 "a" ∈ build exRel exStore ["a"] 1 ∧
    ((expandAux exRel exStore 1 0 "a").depth = 0 ∧
      ∀ n ∈ (expandAux exRel exStore 1 0 "a").allNodes,
        n.depth ≤ 1 ∧ ∀ c ∈ n.children, c.depth = n.depth + 1) := by
  have hmem : expandAux exRel exStore 1 0 "a" ∈ build exRel exStore ["a"] 1 := by
    unfold build
    simp
  exact ⟨hmem,
    forest_depth_invariants exRel exStore ["a"] 1 (expandAux exRel exStore 1 0 "a") hmem⟩

end VietNet
